import Mathlib

/-!
Shallow embedding of the FuXi SIP-construction kernel
(lib/Rete/SidewaysInformationPassing.py) and of the backward-chaining
store driver (lib/SPARQL/BackwardChainingStore.py).

Conventions of the embedding:
* RDF terms (rdflib Variable / BNode / URIRef / Literal) are a closed sum
  over their underlying strings (all four rdflib classes are str
  subclasses, so Python string operations act on the carried string).
* Literals (atoms) are the closed sum over the variants handled by the
  source: Uniterm (a triple-shaped atom, two argument positions, naf
  flag), N3Builtin, and the existential wrapper Exists.  A FuXi Uniterm
  always carries exactly two argument positions (subject/object, or
  member/class for rdf:type atoms), so arg is modelled as two fields.
* Python generators become Lean lists of the yielded values, in yield
  order; raised exceptions become Except.error values.
* rdflib Graphs become lists of triples (addition is set-like: a triple
  already present is not added twice); blank nodes are allocated from an
  explicit counter threaded through the graph state.
* Python truthiness of an rdflib term (a str subclass) is emptiness of
  the carried string; truthiness of a list/set/dict is non-emptiness.
-/

namespace FuXi

/-- RDF terms: rdflib Variable, BNode, URIRef, Literal (all str subclasses). -/
inductive Term where
  | var (s : String)
  | bnode (s : String)
  | uri (s : String)
  | lit (s : String)
deriving DecidableEq

/-- The underlying string of a term (Python str() of an rdflib term). -/
def Term.text : Term → String
  | .var s => s
  | .bnode s => s
  | .uri s => s
  | .lit s => s

/-- isinstance(t, Variable) -/
def isVar : Term → Bool
  | .var _ => true
  | _ => false

/-- isinstance(t, (Variable, BNode)) -/
def isVarOrBNode : Term → Bool
  | .var _ => true
  | .bnode _ => true
  | _ => false

/-- Python truthiness of an rdflib term: it is a str subclass, so it is
falsy exactly when the carried string is empty. -/
def truthy (t : Term) : Bool := !t.text.isEmpty

def rdfNS : String := "http://www.w3.org/1999/02/22-rdf-syntax-ns#"

def rdf_type : Term := .uri (rdfNS ++ "type")

def rdf_first : Term := .uri (rdfNS ++ "first")

def rdf_rest : Term := .uri (rdfNS ++ "rest")

def rdf_nil : Term := .uri (rdfNS ++ "nil")

/-- MAGIC = Namespace('http://doi.acm.org/10.1145/28659.28689#') -/
def MAGIC_ns : String := "http://doi.acm.org/10.1145/28659.28689#"

def magicSipArc : Term := .uri (MAGIC_ns ++ "SipArc")

def magicBoundHeadPredicate : Term := .uri (MAGIC_ns ++ "BoundHeadPredicate")

def magicBindings : Term := .uri (MAGIC_ns ++ "bindings")

/-- Literal (atom) variants handled by the source:
Uniterm (an RDF-triple-shaped atom: operator, two argument positions,
negation-as-failure flag), N3Builtin (uri/argument/result), and the
transparent existential wrapper Exists (whose formula is a literal). -/
inductive Lit where
  | Uniterm (op : Term) (a0 : Term) (a1 : Term) (naf : Bool)
  | N3Builtin (uri : Term) (argument : Term) (result : Term)
  | exists_ (formula : Lit)
deriving DecidableEq

/-- Exceptions raised by the embedded code. -/
inductive PyErr where
  | invalidSIP
  | unsupportedTermKind
  | keyError
  | indexError
  | typeError
  | assertionError
deriving DecidableEq

/-- GetOp (SidewaysInformationPassing.py lines 201-210).  For a Uniterm the
source computes `term.op == RDF.type and term.arg[-1] or term.op`, an
and-or chain: when op is rdf:type the class position arg[-1] is returned
unless it is falsy. -/
def GetOp : Lit → Term
  | .N3Builtin u _ _ => u
  | .Uniterm op _ a1 _ => if op = rdf_type ∧ truthy a1 = true then a1 else op
  | .exists_ f => GetOp f

/-- GetArgs (SidewaysInformationPassing.py lines 220-240). -/
def GetArgs (term : Lit) (secondOrder : Bool) : List Term :=
  match term with
  | .N3Builtin _ argument result => [argument, result]
  | .Uniterm op a0 a1 _ =>
      if op = rdf_type then
        if secondOrder ∧ isVarOrBNode a1 = true then [a0, a1] else [a0]
      else if isVarOrBNode op then [op, a0, a1]
      else [a0, a1]
  | .exists_ f => GetArgs f secondOrder

/-- GetVariables (SidewaysInformationPassing.py lines 213-217). -/
def GetVariables (term : Lit) (secondOrder : Bool) : List Term :=
  (GetArgs term secondOrder).filter isVar

/-- SetOp (SidewaysInformationPassing.py lines 188-198).  Note: unlike
GetOp and GetArgs, the source has no isinstance(term, Exists) branch, so
an existential wrapper falls to the final raise. -/
def SetOp (term : Lit) (value : Term) : Except PyErr Lit :=
  match term with
  | .N3Builtin _ argument result => .ok (.N3Builtin value argument result)
  | .Uniterm op a0 a1 f =>
      if op = rdf_type then .ok (.Uniterm op a0 value f)
      else .ok (.Uniterm value a0 a1 f)
  | .exists_ _ => .error .unsupportedTermKind

/-- Whether the literal is the existential wrapper. -/
def isExistsLit : Lit → Bool
  | .exists_ _ => true
  | _ => false

def isOkE {ε α : Type} : Except ε α → Bool
  | .ok _ => true
  | .error _ => false

/-- getOccurrenceId (SidewaysInformationPassing.py lines 267-271):
URIRef(GetOp(uniterm) + '_' + '_'.join(GetArgs(uniterm))).  (The mutable
lookup default argument records GetOp under the id; it does not affect
the returned value and is threaded explicitly where needed.) -/
def getOccurrenceId (uniterm : Lit) : Term :=
  .uri ((GetOp uniterm).text ++ "_" ++
        String.intercalate "_" (((GetArgs uniterm false).map Term.text)))

/-- Deduplicate keeping first occurrences (models Python list(set(..)) /
set accumulation where only membership matters downstream). -/
def dedupAux {α : Type} [DecidableEq α] (seen : List α) : List α → List α
  | [] => []
  | x :: xs =>
      if x ∈ seen then dedupAux seen xs
      else x :: dedupAux (seen ++ [x]) xs

/-- The initial carried-variable computation of findFullSip (lines
277-285): when vars is falsy it is recomputed from rt.  For a singleton
rt it is GetArgs(rt[0], secondOrder=True) (unfiltered); for two elements
it is the reduce of the filtering lambda (for three or more elements the
source's reduce would call GetArgs on a list and raise; that case is
unreachable because recursive calls always pass a non-empty vars). -/
def initVars (rt : List Lit) : List Term :=
  match rt with
  | [single] => GetArgs single true
  | a :: b :: _ => ((GetArgs a true) ++ (GetArgs b true)).filter isVarOrBNode
  | [] => []

/-- findFullSip (SidewaysInformationPassing.py lines 274-303), fueled to
make the recursion structural; fuel at least (length of right) + 1 is
always sufficient since every recursive call strictly shrinks right.
The generator becomes the list of yielded orderings in yield order.

Faithfulness note on the base case: the source line
`yield rt + list(right) if isinstance(right, And) else right`
parses as `yield ((rt + list(right)) if isinstance(right, And) else right)`,
so the prefix rt is prepended only when right is an And instance;
recursive calls pass plain Python lists (rightIsAnd = false), for which
only `right` itself is yielded. -/
def findFullSip (fuel : Nat) (rt : List Lit) (vars0 : List Term)
    (right : List Lit) (rightIsAnd : Bool) : List (List Lit) :=
  match fuel with
  | 0 => []
  | fu + 1 =>
    let vars := if vars0.isEmpty then initVars rt else vars0
    match right with
    | [r0] =>
        if (GetArgs r0 true).any (fun a => decide (a ∈ vars)) then
          [if rightIsAnd then rt ++ right else right]
        else []
    | _ =>
        right.flatMap (fun item =>
          let iv := (GetArgs item true).filter isVarOrBNode
          if iv.any (fun v => decide (v ∈ vars)) then
            let inVars := vars ++ iv.filter (fun v => decide (v ∉ vars))
            findFullSip fu (rt ++ [item]) inVars
              (right.filter (fun i => decide (i ≠ item))) false
          else [])

/-- An RDF triple. -/
structure Triple where
  s : Term
  p : Term
  o : Term
deriving DecidableEq

/-- SIP graph under construction: its triples plus a blank-node counter. -/
structure GState where
  triples : List Triple
  counter : Nat
deriving DecidableEq

/-- rdflib Graph.add: set-like addition. -/
def addTriple (st : GState) (t : Triple) : GState :=
  if t ∈ st.triples then st else { st with triples := st.triples ++ [t] }

def addTriples (st : GState) (ts : List Triple) : GState :=
  ts.foldl addTriple st

def freshBNode (st : GState) : GState × Term :=
  ({ st with counter := st.counter + 1 }, .bnode ("_b" ++ toString st.counter))

/-- Build the rdf:first/rdf:rest chain of an rdflib Collection rooted at
node, holding the given (non-empty) items; chain continuation nodes are
fresh blank nodes. -/
def buildChain (st : GState) (node : Term) : List Term → GState
  | [] => st
  | [x] => addTriples st [⟨node, rdf_first, x⟩, ⟨node, rdf_rest, rdf_nil⟩]
  | x :: y :: rest =>
      let (st1, nxt) := freshBNode st
      let st2 := addTriples st1 [⟨node, rdf_first, x⟩, ⟨node, rdf_rest, nxt⟩]
      buildChain st2 nxt (y :: rest)

/-- Collection(sipGraph, None) rooted at a fresh blank node, with the given
items appended (SidewaysInformationPassing.py lines 354-356). -/
def addCollection (st : GState) (items : List Term) : GState × Term :=
  let (st1, root) := freshBNode st
  (buildChain st1 root items, root)

/-- The accumulating value of the collectSip reduce: either the single
head literal (first step) or the list built so far, each member flagged
with its isHead mark (the attribute set transiently on the head). -/
inductive SipAcc where
  | single (l : Lit)
  | multi (ls : List (Lit × Bool))
deriving DecidableEq

/-- CollectSIPArcVars (SidewaysInformationPassing.py lines 172-185).
List case: each member contributes phBoundVars when it carries the isHead
mark and phBoundVars is truthy (the source's hasattr-and-or chain),
otherwise its secondOrder arguments; the union is intersected with the
arguments of right.  Single case: phBoundVars when truthy, else the
arguments of left, intersected with the arguments of right. -/
def CollectSIPArcVars (left : SipAcc) (right : Lit) (phBoundVars : List Term) :
    List Term :=
  match left with
  | .multi ls =>
      dedupAux []
        ((ls.flatMap (fun t =>
            if t.2 = true ∧ phBoundVars ≠ [] then phBoundVars
            else GetArgs t.1 true)).filter
          (fun v => decide (v ∈ GetArgs right true)))
  | .single l =>
      dedupAux []
        ((if phBoundVars.isEmpty then GetArgs l true else phBoundVars).filter
          (fun v => decide (v ∈ GetArgs right true)))

/-- collectSip (SidewaysInformationPassing.py lines 349-375), as left in
the source: the SIPGraphArc constructions (lines 358-360 and 370) and the
getOccurrenceId calls (lines 359, 368) are commented out, so no
magic:SipArc edge and no bindings collection is ever added; the list
branch still materialises the left-hand Collection of operator names, and
the single (head) branch still adds the BoundHeadPredicate type triple
when the head is bound.  Raises InvalidSIPException when the collected
variable set is empty and ignoreUnboundDPreds is set (before touching the
graph). -/
def collectSip (boundHead : Bool) (phBoundVars : List Term)
    (ignoreUnboundDPreds : Bool) (st : GState) (acc : SipAcc) (right : Lit) :
    GState × Except PyErr SipAcc :=
  match acc with
  | .multi ls =>
      let vars := CollectSIPArcVars (.multi ls) right phBoundVars
      if vars.isEmpty ∧ ignoreUnboundDPreds then (st, .error .invalidSIP)
      else
        let deduped := dedupAux [] ls
        let (st1, _) := addCollection st (deduped.map (fun t => GetOp t.1))
        (st1, .ok (.multi (deduped ++ [(right, false)])))
  | .single l =>
      let vars := CollectSIPArcVars (.single l) right phBoundVars
      if vars.isEmpty ∧ ignoreUnboundDPreds then (st, .error .invalidSIP)
      else if boundHead then
        (addTriple st ⟨GetOp l, rdf_type, magicBoundHeadPredicate⟩,
         .ok (.multi [(l, true), (right, false)]))
      else (st, .ok (.multi [(right, false)]))

def reduceCollectSipGo (boundHead : Bool) (phBoundVars : List Term)
    (ignoreUnboundDPreds : Bool) (st : GState) (acc : SipAcc) :
    List Lit → GState × Except PyErr SipAcc
  | [] => (st, .ok acc)
  | y :: ys =>
      match collectSip boundHead phBoundVars ignoreUnboundDPreds st acc y with
      | (st1, .ok acc1) =>
          reduceCollectSipGo boundHead phBoundVars ignoreUnboundDPreds st1 acc1 ys
      | (st1, .error e) => (st1, .error e)

/-- reduce(collectSip, iterCondition(And(sip))): Python reduce seeded with
the first element (a reduce over a single element never calls collectSip);
reduce over an empty sequence raises TypeError.  Graph mutations made
before an exception persist, so the state is returned alongside the
outcome. -/
def reduceCollectSip (boundHead : Bool) (phBoundVars : List Term)
    (ignoreUnboundDPreds : Bool) (st : GState) :
    List Lit → GState × Except PyErr SipAcc
  | [] => (st, .error .typeError)
  | x :: xs =>
      reduceCollectSipGo boundHead phBoundVars ignoreUnboundDPreds st (.single x) xs

/-- The while-not-foundSip loop of BuildNaturalSIP (lines 379-396): pull
the next full-sip ordering, run the collectSip reduce (with
ignoreUnboundDPreds true), catch InvalidSIPException and retry; raise
InvalidSIPException when the generator is exhausted.  Partial graph
mutations of failed attempts persist. -/
def trySips (boundHead : Bool) (phBoundVars : List Term) (st : GState) :
    List (List Lit) → Except PyErr (GState × SipAcc × List Lit)
  | [] => .error .invalidSIP
  | sip :: rest =>
      match reduceCollectSip boundHead phBoundVars true st sip with
      | (st1, .ok acc) => .ok (st1, acc, sip)
      | (st1, .error .invalidSIP) => trySips boundHead phBoundVars st1 rest
      | (_, .error e) => .error e

/-- validSip (SidewaysInformationPassing.py lines 255-264): False when the
graph has no triples at all; otherwise False iff some triple links an arc
to a bindings collection (predicate magic:bindings) whose collection node
has no rdf:first triple (an empty bindings list); True otherwise. -/
def validSip (sipGraph : List Triple) : Bool :=
  if sipGraph.length = 0 then false
  else
    !(sipGraph.any (fun t =>
        decide (t.p = magicBindings) &&
        !(sipGraph.any (fun u => decide (u.s = t.o) && decide (u.p = rdf_first)))))

/-- The triples (N, prop, q) whose predicate prop is typed magic:SipArc —
the rows of the query SELECT ?N ?prop ?q where prop a magic:SipArc. -/
def arcTriples (g : List Triple) : List Triple :=
  g.filter (fun t => decide ((⟨t.p, rdf_type, magicSipArc⟩ : Triple) ∈ g))

def alookupT (l : List (Term × Term)) (k : Term) : Option Term :=
  match l with
  | [] => none
  | kv :: rest => if kv.1 = k then some kv.2 else alookupT rest k

/-- graph.value(container, RDF.rest): first matching object. -/
def graphValue (g : List Triple) (s : Term) (p : Term) : Option Term :=
  ((g.filter (fun t => decide (t.s = s) && decide (t.p = p))).head?).map Triple.o

/-- rdflib Collection.clear rooted at container: walk the rdf:rest chain
removing each node's rdf:first/rdf:rest triples (fueled walk; the chains
built by this module are finite and shorter than the graph). -/
def clearCollection (fuel : Nat) (g : List Triple) (container : Option Term) :
    List Triple :=
  match fuel, container with
  | 0, _ => g
  | _, none => g
  | fu + 1, some c =>
      let rest := graphValue g c rdf_rest
      let g1 := g.filter (fun t =>
        !(decide (t.s = c) && (decide (t.p = rdf_first) || decide (t.p = rdf_rest))))
      clearCollection fu g1 rest

/-- The "arcs into derived predicates only" generalization of
BuildNaturalSIP (lines 420-442), as a function of the graph, the
occurrence-lookup map, derivedPreds and hybridPreds2Replace.  For each arc
(N, prop, q) the source evaluates occurLookup[q] (KeyError when absent)
and removes the arc iff occurLookup[q] is not in derivedPreds AND
(`occurLookup[q] not in hybridPreds2Replace if hybridPreds2Replace else
False`) — i.e. when hybridPreds2Replace is None or empty the second
conjunct is False and nothing is ever removed.  Removal deletes the arc
triple, every triple whose subject is prop, and clears the source
collection at N and the bindings collection of prop (both captured before
any removal). -/
def generalizeSip (derivedPreds : List Term)
    (hybridPreds2Replace : Option (List Term))
    (occurLookup : List (Term × Term)) (g : List Triple) :
    Except PyErr (List Triple) := do
  let pairs ← (arcTriples g).mapM (fun t =>
    match alookupT occurLookup t.o with
    | none => .error PyErr.keyError
    | some opq => .ok (t, opq))
  let toRemove := pairs.filter (fun pr =>
    decide (pr.2 ∉ derivedPreds) &&
    (match hybridPreds2Replace with
     | some hs => if hs.isEmpty then false else decide (pr.2 ∉ hs)
     | none => false))
  let clears := toRemove.map (fun pr =>
    (pr.1.s, graphValue g pr.1.p magicBindings))
  let g1 := toRemove.foldl (fun gg pr =>
    (gg.filter (fun t => decide (t ≠ pr.1))).filter
      (fun t => decide (t.s ≠ pr.1.p))) g
  let g2 := clears.foldl (fun gg pr =>
    clearCollection (gg.length + 2)
      (clearCollection (gg.length + 2) gg (some pr.1)) pr.2) g1
  return g2

/-- Rule body: a single literal or a conjunction (And) of literals. -/
inductive Body where
  | atom (l : Lit)
  | conj (ls : List Lit)
deriving DecidableEq

structure Clause where
  head : Lit
  body : Body
deriving DecidableEq

/-- iterCondition on a single (non-SetOperator) condition: unwrap Exists
wrappers, then a singleton iterator. -/
def iterCondAtom : Lit → List Lit
  | .exists_ f => iterCondAtom f
  | l => [l]

/-- The adorned head passed to BuildNaturalSIP: the head literal plus its
adornment, one Boolean per argument position, true meaning bound. -/
structure AdornedHead where
  lit : Lit
  adornment : List Bool
deriving DecidableEq

/-- Modelled from the spec: AdornedUniTerm.getDistinguishedVariables
(FuXi.Rete.Magic, not under src/) with varsOnly=True returns the
head-distinguished bound variables — the variables sitting at bound
(adornment 'b') argument positions of the adorned head. -/
def getDistinguishedVariables (h : AdornedHead) : List Term :=
  ((((GetArgs h.lit false).zip h.adornment).filter (fun pr => pr.2)).map
      Prod.fst).filter isVar

/-- isinstance(i, Uniterm) and i.naf: a negated literal in the body. -/
def isNafUniterm : Lit → Bool
  | .Uniterm _ _ _ nf => nf
  | _ => false

def hasNafLiteral (ls : List Lit) : Bool := ls.any isNafUniterm

def properSipOrderAux (seen : List Lit) : List Lit → Bool
  | [] => true
  | l :: rest =>
      (if isNafUniterm l then
        (GetVariables l true).all (fun v =>
          seen.any (fun a =>
            !isNafUniterm a && decide (v ∈ GetArgs a true)))
       else true)
      && properSipOrderAux (seen ++ [l]) rest

/-- Modelled from the spec: ProperSipOrderWithNegation (FuXi.DLP.Negation,
not under src/) — an ordering is a proper SIP order with negation iff
every negated (naf) literal appears after the atoms providing its
variable bindings, i.e. each of its variables occurs among the arguments
of an earlier non-negated literal of the ordering. -/
def properSipOrderWithNegation (ordering : List Lit) : Bool :=
  properSipOrderAux [] ordering

/-- The body-ordering selection of BuildNaturalSIP's
not-ignoreUnboundDPreds path (lines 397-409): when the body holds negated
literals, the first findFullSip ordering passing
ProperSipOrderWithNegation; otherwise the first findFullSip ordering.
None models a falsy first(...) result (the assert then fires). -/
def selectBodyOrder (head : Lit) (ls : List Lit) : Option (List Lit) :=
  let sips := findFullSip (ls.length + 1) [head] [] ls true
  if hasNafLiteral ls then (sips.filter properSipOrderWithNegation).head?
  else sips.head?

/-- The result of BuildNaturalSIP: the graph's triples, its sipOrder
attribute, and (for conjunctive bodies) the selected body ordering the
collectSip reduce was run over. -/
structure SipResult where
  triples : List Triple
  sipOrder : List Lit
  bodyOrder? : Option (List Lit)
deriving DecidableEq

/-- The trailing generalization step of BuildNaturalSIP (lines 420-442):
executed only when derivedPreds is truthy (non-empty); the occurrence
lookup is empty in the source because the getOccurrenceId calls inside
collectSip are commented out. -/
def finishSip (derivedPreds : List Term)
    (hybridPreds2Replace : Option (List Term)) (st : GState)
    (sipOrder : List Lit) (bodyOrder? : Option (List Lit)) :
    Except PyErr SipResult := do
  if derivedPreds.isEmpty then
    return { triples := st.triples, sipOrder := sipOrder, bodyOrder? := bodyOrder? }
  else
    let g ← generalizeSip derivedPreds hybridPreds2Replace [] st.triples
    return { triples := g, sipOrder := sipOrder, bodyOrder? := bodyOrder? }

/-- BuildNaturalSIP (SidewaysInformationPassing.py lines 311-443).
boundHead iff a 'b' occurs in the head adornment; phBoundVars are the
head-distinguished bound variables.  For a conjunctive body:
with ignoreUnboundDPreds the first findFullSip ordering whose collectSip
reduce succeeds is taken (partial mutations of failed attempts persist);
otherwise the ordering is chosen by selectBodyOrder and a falsy choice
trips the assert.  sipOrder is And(bodyOrder[1:]).  For an atomic body
the reduce runs over head and body only when boundHead, and sipOrder is
the body itself.  Finally the generalization step runs when derivedPreds
is non-empty. -/
def BuildNaturalSIP (clause : Clause) (derivedPreds : List Term)
    (adornedHead : AdornedHead) (hybridPreds2Replace : Option (List Term))
    (ignoreUnboundDPreds : Bool) : Except PyErr SipResult :=
  let boundHead := adornedHead.adornment.contains true
  let phBoundVars := getDistinguishedVariables adornedHead
  let st0 : GState := { triples := [], counter := 0 }
  match clause.body with
  | .conj ls =>
      if ignoreUnboundDPreds then
        match trySips boundHead phBoundVars st0
            (findFullSip (ls.length + 1) [clause.head] [] ls true) with
        | .error e => .error e
        | .ok (st, _, bodyOrder) =>
            finishSip derivedPreds hybridPreds2Replace st
              (bodyOrder.drop 1) (some bodyOrder)
      else
        match selectBodyOrder clause.head ls with
        | none => .error .assertionError
        | some bodyOrder =>
            match reduceCollectSip boundHead phBoundVars false st0 bodyOrder with
            | (_, .error e) => .error e
            | (st, .ok _) =>
                finishSip derivedPreds hybridPreds2Replace st
                  (bodyOrder.drop 1) (some bodyOrder)
  | .atom b =>
      if boundHead then
        match reduceCollectSip boundHead phBoundVars ignoreUnboundDPreds st0
            (iterCondAtom clause.head ++ iterCondAtom b) with
        | (_, .error e) => .error e
        | (st, .ok _) => finishSip derivedPreds hybridPreds2Replace st [b] none
      else finishSip derivedPreds hybridPreds2Replace st0 [b] none

/-! BackwardChainingStore.py (TopDownSPARQLEntailingStore). -/

/-- A binding environment: a finite mapping from variables to values,
represented as an association list read through alookup (first match). -/
abbrev Bindings := List (Term × Term)

def alookup (d : Bindings) (k : Term) : Option Term :=
  match d with
  | [] => none
  | kv :: rest => if kv.1 = k then some kv.2 else alookup rest k

/-- Models `item = {}; item.update(d1); item.update(d2)` — dictionary
update where the later update (d2) wins on shared keys.  As a finite
mapping read through alookup this is the association list with d2 in
front. -/
def dictUpdate (d1 d2 : Bindings) : Bindings := d2 ++ d1

/-- Modelled from the spec: mergeMappings1To2 (FuXi.Rete.TopDown, not
under src/) — merge(a,b) is defined iff a and b agree on the intersection
of their keys; otherwise the merge fails and the candidate solution is
discarded. -/
def mergeMappings1To2 (m1 m2 : Bindings) : Option Bindings :=
  if m1.all (fun kv =>
      match alookup m2 kv.1 with
      | none => true
      | some v => decide (v = kv.2)) then
    some (dictUpdate m1 m2)
  else none

abbrev TriplePat := Term × Term × Term

/-- The evaluate() outcome of an EDBQuery against the base store: a
boolean (ground query) or a sequence of solution rows. -/
inductive EDBResult where
  | boolean (b : Bool)
  | rows (rs : List Bindings)

/-- An answer produced by the decision procedure for a derived subgoal:
a solution dictionary for an open query, or a boolean for a ground one. -/
inductive DPAnswer where
  | dict (b : Bindings)
  | boolean (b : Bool)

/-- derivedPredicateFromTriple (BackwardChainingStore.py lines 397-410). -/
def derivedPredicateFromTriple (derivedPredicates hybridPredicates : List Term)
    (t : TriplePat) : Option Term :=
  let (_, p, o) := t
  if p ∈ derivedPredicates ∨ p ∈ hybridPredicates then some p
  else if p = rdf_type ∧ o ≠ p ∧ (o ∈ derivedPredicates ∨ o ∈ hybridPredicates)
  then some o
  else none

/-- BuildUnitermFromTuple (FuXi.Horn.PositiveConditions, external to
src/): a triple (s, p, o) becomes the Uniterm with operator p and
arguments [s, o] (rdf:type triples keep rdf:type as op with the class in
the last argument position). -/
def BuildUnitermFromTuple (t : TriplePat) : Lit :=
  .Uniterm t.2.1 t.1 t.2.2 false

def toRDFTuple : Lit → TriplePat
  | .Uniterm op a0 a1 _ => (a0, op, a1)
  | .N3Builtin u a r => (a, u, r)
  | .exists_ f => toRDFTuple f

/-- hybridPredQueryPreparation (BackwardChainingStore.py lines 271-278):
when the operator of the literal built from tp is a hybrid predicate,
rewrite it to the '_derived'-suffixed symbol and return the rewritten
tuple; otherwise return tp unchanged. -/
def hybridPredQueryPreparation (hybridPredicates : List Term)
    (tp : TriplePat) : TriplePat :=
  let l := BuildUnitermFromTuple tp
  let op := GetOp l
  if op ∈ hybridPredicates then
    let l2 := match l with
      | .Uniterm lop a0 a1 nf =>
          if lop = rdf_type then
            Lit.Uniterm lop a0 (.uri (op.text ++ "_derived")) nf
          else Lit.Uniterm (.uri (op.text ++ "_derived")) a0 a1 nf
      | other => other
    toRDFTuple l2
  else tp

/-- conjunctiveSipStrategy (BackwardChainingStore.py lines 308-395).
Base evaluation (EDBQuery.evaluate) and the decision procedure
(invokeDecisionProcedure) are the store's external collaborators and are
passed as oracles.  When the goal iterator is exhausted the current
bindings are yielded (the StopIteration handler).  For a non-derived
goal: a true boolean yields the bindings, rows recurse per row with
`item = {}; item.update(row); item.update(bindings)` — a plain dict
update with no conflict check.  For a derived goal the tuple is
hybrid-prepared and each decision-procedure answer is merged via
mergeMappings1To2 (dict answers) or passed through (true booleans). -/
def conjunctiveSipStrategy (derivedPredicates hybridPredicates : List Term)
    (edbEval : TriplePat → Bindings → EDBResult)
    (invokeDP : TriplePat → Bindings → List DPAnswer)
    (goals : List TriplePat) (bindings : Bindings) : List Bindings :=
  match goals with
  | [] => [bindings]
  | tp :: rest =>
      match derivedPredicateFromTriple derivedPredicates hybridPredicates tp with
      | none =>
          match edbEval tp bindings with
          | .boolean b => if b then [bindings] else []
          | .rows rs =>
              rs.flatMap (fun row =>
                conjunctiveSipStrategy derivedPredicates hybridPredicates
                  edbEval invokeDP rest (dictUpdate row bindings))
      | some _ =>
          let tp2 := hybridPredQueryPreparation hybridPredicates tp
          (invokeDP tp2 bindings).flatMap (fun ans =>
            match ans with
            | .dict nextAnswer =>
                match mergeMappings1To2 bindings nextAnswer with
                | some m =>
                    conjunctiveSipStrategy derivedPredicates hybridPredicates
                      edbEval invokeDP rest m
                | none => []
            | .boolean b =>
                if b then
                  conjunctiveSipStrategy derivedPredicates hybridPredicates
                    edbEval invokeDP rest bindings
                else [])

/-- A Python value flowing out of a SPARQL result set: a scalar term or a
result-row tuple of terms. -/
inductive PyVal where
  | term (t : Term)
  | tup (ts : List Term)
deriving DecidableEq

abbrev BURow := List (Term × PyVal)

/-- A 4-item batch_unify pattern (triple pattern plus graph name). -/
structure Pattern4 where
  s : Term
  p : Term
  o : Term
  g : Term
deriving DecidableEq

/-- The dPreds accumulation of batch_unify (lines 512-518): per pattern,
`dPred = o if p == RDF.type else p`; hybrid predicates contribute their
'_derived' form, others contribute `p == RDF.type and o or p`. -/
def batchDPreds (hybridPredicates : List Term) (patterns : List Pattern4) :
    List Term :=
  patterns.map (fun pat =>
    let dPred := if pat.p = rdf_type then pat.o else pat.p
    if dPred ∈ hybridPredicates then Term.uri (dPred.text ++ "_derived")
    else if pat.p = rdf_type ∧ truthy pat.o = true then pat.o else pat.p)

/-- One row of the EDB branch of batch_unify: `dict([(vars[idx], i) for
idx, i in enumerate(v)])` when len(vars) > 1, else `dict([(vars[0], v)])`
— the latter raises IndexError when vars is empty. -/
def rowToDict (vs : List Term) (v : PyVal) : Except PyErr BURow :=
  if vs.length > 1 then
    match v with
    | .tup ts =>
        (ts.enum).mapM (fun pr =>
          match vs[pr.1]? with
          | some x => .ok (x, PyVal.term pr.2)
          | none => .error PyErr.indexError)
    | .term _ => .error .typeError
  else
    match vs[0]? with
    | some v0 => .ok [(v0, v)]
    | none => .error .indexError

/-- batch_unify (BackwardChainingStore.py lines 494-559).  When the
accumulated dPreds intersect the derived predicates, the conjunctive
sip strategy solves the goals (its bindings are injected as scalar
values); otherwise the conjunction is dispatched to the base store
(abstracted by edbQueryRows, the rows of the generated SPARQL query) and
each row is converted by rowToDict over the deduplicated Variable list
collected from the patterns.  Iterating the returned generator raises
the first conversion error, modelled by Except over the whole list. -/
def batch_unify (derivedPredicates hybridPredicates : List Term)
    (edbEval : TriplePat → Bindings → EDBResult)
    (invokeDP : TriplePat → Bindings → List DPAnswer)
    (edbQueryRows : List PyVal) (patterns : List Pattern4) :
    Except PyErr (List BURow) :=
  let goals := patterns.map (fun pat => (pat.s, pat.p, pat.o))
  let dPreds := batchDPreds hybridPredicates patterns
  if dPreds.any (fun d => decide (d ∈ derivedPredicates)) then
    .ok ((conjunctiveSipStrategy derivedPredicates hybridPredicates
            edbEval invokeDP goals []).map
          (fun b => b.map (fun kv => (kv.1, PyVal.term kv.2))))
  else
    let vs := dedupAux []
      ((patterns.flatMap (fun pat => [pat.s, pat.p, pat.o])).filter isVar)
    edbQueryRows.mapM (rowToDict vs)

/-- A Horn rule (clause of the intensional rule set). -/
structure Rule where
  head : Lit
  body : List Lit
deriving DecidableEq

instance : Inhabited Rule :=
  ⟨{ head := .Uniterm rdf_type (.var "") (.var "") false, body := [] }⟩

/-- The heap of rule objects: Python object identity becomes an index
into an arena, so that mutation and aliasing are explicit. -/
abbrev Heap := List Rule

/-- list(map(copy.deepcopy, self.idb)): allocate a fresh copy of each
referenced rule at the end of the heap, returning the fresh references
in order. -/
def deepcopyRules : List Nat → Heap → List Nat × Heap
  | [], h => ([], h)
  | r :: rs, h =>
      let h1 := h ++ [h.getD r default]
      let (refs, h2) := deepcopyRules rs h1
      (h.length :: refs, h2)

/-- Rewrite one literal: a hybrid-predicate occurrence gets the
'_derived'-suffixed operator (through the class position for rdf:type
atoms, as SetOp does). -/
def rewriteLitHybrid (hybrids : List Term) (l : Lit) : Lit :=
  match l with
  | .Uniterm op a0 a1 nf =>
      let cur := GetOp (Lit.Uniterm op a0 a1 nf)
      if cur ∈ hybrids then
        if op = rdf_type then .Uniterm op a0 (.uri (cur.text ++ "_derived")) nf
        else .Uniterm (.uri (cur.text ++ "_derived")) a0 a1 nf
      else .Uniterm op a0 a1 nf
  | .N3Builtin u a r =>
      if u ∈ hybrids then .N3Builtin (.uri (u.text ++ "_derived")) a r
      else .N3Builtin u a r
  | .exists_ f => .exists_ (rewriteLitHybrid hybrids f)

def rewriteRuleHybrid (hybrids : List Term) (r : Rule) : Rule :=
  { head := rewriteLitHybrid hybrids r.head,
    body := r.body.map (rewriteLitHybrid hybrids) }

/-- Modelled from the spec: ReplaceHybridPredcates (FuXi.Rete.Magic, not
under src/) — rewrite, in place in each of the given rule objects, every
occurrence of a hybrid predicate to its '_derived'-suffixed symbol. -/
def ReplaceHybridPredcates (hybrids : List Term) : List Nat → Heap → Heap
  | [], h => h
  | r :: rs, h =>
      ReplaceHybridPredcates hybrids rs
        (h.set r (rewriteRuleHybrid hybrids (h.getD r default)))

/-- Modelled from the spec: CreateHybridPredicateRule (FuXi.Rete.Magic,
not under src/) — synthesize the bridge rule
p_derived(X, Y) :- p(X, Y) for a hybrid predicate p (it reads the rule
set only to coin the rule; it allocates a fresh rule object). -/
def CreateHybridPredicateRule (pred : Term) : Rule :=
  { head := .Uniterm (.uri (pred.text ++ "_derived")) (.var "X") (.var "Y") false,
    body := [.Uniterm pred (.var "X") (.var "Y") false] }

/-- hybridPredicatePreparation (BackwardChainingStore.py lines 280-306):
deep-copy every rule of self.idb, apply the hybrid rewrites to the
copies, append one bridge rule per hybrid predicate, and return the new
derived-predicate list together with the new ruleset (references into
the final heap). -/
def hybridPredicatePreparation (idbRefs : List Nat)
    (hybridPredicates derivedPredicates : List Term) (h : Heap) :
    List Term × List Nat × Heap :=
  let cp := deepcopyRules idbRefs h
  let h2 := ReplaceHybridPredcates hybridPredicates cp.1 cp.2
  let h3 := h2 ++ hybridPredicates.map CreateHybridPredicateRule
  let rsRefs := cp.1 ++ (List.range hybridPredicates.length).map
    (fun k => h2.length + k)
  let nd := derivedPredicates.filter (fun i => !decide (i ∈ hybridPredicates)) ++
    hybridPredicates.map (fun i => Term.uri (i.text ++ "_derived"))
  (nd, rsRefs, h3)

/-! Concrete inputs used by the claim theorems. -/

def vX : Term := .var "X"

def vY : Term := .var "Y"

def vZ : Term := .var "Z"

def vZ1 : Term := .var "Z1"

def vZ2 : Term := .var "Z2"

def vZ3 : Term := .var "Z3"

def vZ4 : Term := .var "Z4"

/-- sg(?X, ?Y) -/
def sgHead : Lit := .Uniterm (.uri "ex:sg") vX vY false

/-- up(?X, ?Z1) -/
def upLit : Lit := .Uniterm (.uri "ex:up") vX vZ1 false

/-- sg(?Z1, ?Z2) -/
def sg12 : Lit := .Uniterm (.uri "ex:sg") vZ1 vZ2 false

/-- flat(?Z2, ?Z3) -/
def flat23 : Lit := .Uniterm (.uri "ex:flat") vZ2 vZ3 false

/-- sg(?Z3, ?Z4) -/
def sg34 : Lit := .Uniterm (.uri "ex:sg") vZ3 vZ4 false

/-- down(?Z4, ?Y) -/
def down4Y : Lit := .Uniterm (.uri "ex:down") vZ4 vY false

/-- The recursive same-generation rule
sg(X,Y) :- up(X,Z1), sg(Z1,Z2), flat(Z2,Z3), sg(Z3,Z4), down(Z4,Y). -/
def sgClause : Clause :=
  { head := sgHead, body := .conj [upLit, sg12, flat23, sg34, down4Y] }

/-- sg head adorned ff. -/
def sgAdornedFF : AdornedHead := { lit := sgHead, adornment := [false, false] }

/-- h(?X) as an rdf:type atom. -/
def hX : Lit := .Uniterm rdf_type vX (.uri "ex:h") false

/-- r(?X, ?Y) -/
def rXY : Lit := .Uniterm (.uri "ex:r") vX vY false

/-- t(?Y, ?Z) -/
def tYZ : Lit := .Uniterm (.uri "ex:t") vY vZ false

/-- naf s(?Y): a negated rdf:type atom. -/
def nafSY : Lit := .Uniterm rdf_type vY (.uri "ex:s") true

/-- naf s(?X) -/
def nafSX : Lit := .Uniterm rdf_type vX (.uri "ex:s") true

/-- h(X) :- And(r(X,Y), naf s(Y)) -/
def clause4 : Clause := { head := hX, body := .conj [rXY, nafSY] }

def ah4 : AdornedHead := { lit := hX, adornment := [true] }

/-- A graph holding exactly one SIP arc into the occurrence of ex:q, with
a non-empty bindings collection. -/
def arcProp : Term := .uri "ex:arc1"

def qOcc : Term := .uri "ex:q_X_Y"

def g3 : List Triple :=
  [⟨.bnode "N", arcProp, qOcc⟩,
   ⟨arcProp, rdf_type, magicSipArc⟩,
   ⟨arcProp, magicBindings, .bnode "bl"⟩,
   ⟨.bnode "bl", rdf_first, vZ1⟩,
   ⟨.bnode "bl", rdf_rest, rdf_nil⟩]

/-- occurLookup mapping the arc destination occurrence to its operator. -/
def lookup3 : List (Term × Term) := [(qOcc, .uri "ex:q")]

/-- h(?X, ?Y) (binary head). -/
def head5 : Lit := .Uniterm (.uri "ex:h") vX vY false

/-- flat(?X, ?Y) -/
def flatXY : Lit := .Uniterm (.uri "ex:flat") vX vY false

/-- h(X,Y) :- flat(X,Y), a single-literal body. -/
def clause5 : Clause := { head := head5, body := .atom flatXY }

def ah5 : AdornedHead := { lit := head5, adornment := [true, false] }

/-- A triple pattern over the predicate ex:a_b. -/
def lit6a : Lit := .Uniterm (.uri "ex:a_b") vX vY false

/-- A triple pattern over the predicate ex:a with subject variable b_X. -/
def lit6b : Lit := .Uniterm (.uri "ex:a") (.var "b_X") vY false

/-- An existential wrapper around a generic triple atom. -/
def lit7 : Lit := .exists_ (.Uniterm (.uri "ex:p") vX vY false)

def tp8 : TriplePat := (.uri "ex:s8", .uri "ex:p8", .uri "ex:o8")

def aConst : Term := .uri "ex:valA"

def bConst : Term := .uri "ex:valB"

/-- Base-store oracle for the C8 scenario: the EDB query returns one row
binding ?x to ex:valB. -/
def edbEval8 : TriplePat → Bindings → EDBResult :=
  fun _ _ => .rows [[(vX, bConst)]]

def invokeDP8 : TriplePat → Bindings → List DPAnswer := fun _ _ => []

def rule9 : Rule :=
  { head := .Uniterm (.uri "ex:p") vX vY false,
    body := [.Uniterm (.uri "ex:q") vX vY false] }

def heap9 : Heap := [rule9]

def edbEval10 : TriplePat → Bindings → EDBResult := fun _ _ => .boolean false

def invokeDP10 : TriplePat → Bindings → List DPAnswer := fun _ _ => []

/-- A fully ground batch_unify pattern. -/
def pat10 : Pattern4 :=
  { s := .uri "ex:a", p := .uri "ex:pp", o := .uri "ex:b", g := .uri "ex:g" }

/-! Helper lemmas. -/

theorem alookup_append (l1 l2 : Bindings) (k : Term) :
    alookup (l1 ++ l2) k =
      match alookup l1 k with
      | some v => some v
      | none => alookup l2 k := by
  induction l1 with
  | nil => simp [alookup]
  | cons kv rest ih =>
      by_cases h : kv.1 = k <;> simp [alookup, h, ih]

theorem deepcopy_shape (rs : List Nat) (h : Heap) :
    ∃ t, (deepcopyRules rs h).2 = h ++ t := by
  induction rs generalizing h with
  | nil => exact ⟨[], by simp [deepcopyRules]⟩
  | cons r rest ih =>
      obtain ⟨t1, e⟩ := ih (h ++ [h.getD r default])
      refine ⟨[h.getD r default] ++ t1, ?_⟩
      simp only [deepcopyRules]
      rw [e]
      simp

theorem deepcopy_refs_ge (rs : List Nat) (h : Heap) (x : Nat)
    (hx : x ∈ (deepcopyRules rs h).1) : h.length ≤ x := by
  induction rs generalizing h with
  | nil => simp [deepcopyRules] at hx
  | cons r rest ih =>
      simp only [deepcopyRules, List.mem_cons] at hx
      rcases hx with hx | hx
      · omega
      · have h2 := ih (h ++ [h.getD r default]) hx
        simp at h2
        omega

theorem replace_length (hyb : List Term) (rs : List Nat) (h : Heap) :
    (ReplaceHybridPredcates hyb rs h).length = h.length := by
  induction rs generalizing h with
  | nil => rfl
  | cons r rest ih =>
      simp only [ReplaceHybridPredcates]
      rw [ih]
      simp

theorem replace_frame (hyb : List Term) (rs : List Nat) (h : Heap) (i : Nat)
    (hne : ∀ r ∈ rs, r ≠ i) :
    (ReplaceHybridPredcates hyb rs h)[i]? = h[i]? := by
  induction rs generalizing h with
  | nil => rfl
  | cons r rest ih =>
      simp only [ReplaceHybridPredcates]
      rw [ih _ (fun r2 hr2 => hne r2 (List.mem_cons_of_mem _ hr2))]
      exact List.getElem?_set_ne (hne r (List.mem_cons_self _ _))

/-! Claim theorems. -/

/-- C1: refuted evaluation.  The claim states that BuildNaturalSIP adds one
magic:SipArc edge per contiguous pair of the chosen body ordering and that
for the same-generation recursive rule with head adornment ff the graph
contains the arcs from up over Z1 into sg and from up, sg, flat over Z3
into sg.  Evaluating the embedded source on exactly that rule returns a
graph with no triples at all — in particular no magic:SipArc edge and
neither claimed arc — because the SIPGraphArc constructions inside
collectSip are commented out in the source, and the truncated findFullSip
ordering makes collectSip never run for conjunctive bodies. -/
theorem C1_sg_rule_no_arcs :
    BuildNaturalSIP sgClause [Term.uri "ex:sg"] sgAdornedFF none false =
      .ok { triples := [], sipOrder := [], bodyOrder? := some [down4Y] } := by
  rfl

/-- C2: refuted evaluation.  The claim states that the findFullSip base
case yields prefix ++ remaining, so every yielded ordering carries all
body literals with the seed prefix first.  For the seed prefix [h(X)] and
body And(r(X,Y), t(Y,Z)) the sole yielded ordering is [t(Y,Z)]: the
misparenthesized ternary in the source yields only `remaining` when
`remaining` is a plain list (every recursive call), dropping the prefix
and the other body literal. -/
theorem C2_base_case_drops_seed :
    findFullSip 3 [hX] [] [rXY, tYZ] true = [[tYZ]] ∧
    ([tYZ] : List Lit) ≠ [hX, rXY, tYZ] ∧
    rXY ∉ ([tYZ] : List Lit) := by
  refine ⟨rfl, by decide, by decide⟩

/-- C3: refuted evaluation of the generalization step.  The claim states
that with derivedPreds non-empty every arc into a predicate outside the
derived set is dropped, for every value of hybridPreds2Replace including
None/empty.  On a graph holding one arc into the occurrence of ex:q,
whose operator ex:q is outside derivedPreds = [ex:d], the generalization
leaves the graph unchanged for hybridPreds2Replace = None and for the
empty list: the source condition evaluates `occurLookup[q] not in
hybridPreds2Replace if hybridPreds2Replace else False`, which is False
whenever hybridPreds2Replace is falsy, so no removal ever happens. -/
theorem C3_generalization_none_guard_keeps_arc :
    generalizeSip [Term.uri "ex:d"] none lookup3 g3 = .ok g3 ∧
    generalizeSip [Term.uri "ex:d"] (some []) lookup3 g3 = .ok g3 ∧
    Term.uri "ex:q" ∉ ([Term.uri "ex:d"] : List Term) ∧
    (⟨.bnode "N", arcProp, qOcc⟩ : Triple) ∈ g3 ∧
    (⟨arcProp, rdf_type, magicSipArc⟩ : Triple) ∈ g3 := by
  refine ⟨rfl, rfl, by decide, by decide, by decide⟩

/-- C4 counterexample: with ignoreUnboundDPreds = True (the way the
backward-chaining store always invokes SIP construction), BuildNaturalSIP
on h(X) :- And(r(X,Y), naf s(Y)) selects the body ordering consisting of
the negated literal alone: no atom providing the binding of its variable
Y precedes it, so the selected ordering is not a proper SIP order with
negation, refuting the claim that every selected ordering places each
negated literal after all atoms providing its variable bindings. -/
theorem C4_counterexample :
    BuildNaturalSIP clause4 [] ah4 none true =
      .ok { triples := [], sipOrder := [], bodyOrder? := some [nafSY] } ∧
    isNafUniterm nafSY = true ∧
    properSipOrderWithNegation [nafSY] = false := by
  refine ⟨rfl, rfl, by decide⟩

/-- C4 (amended): the negation-placement filter is applied only in the
ignoreUnboundDPreds = False path of BuildNaturalSIP; there, for a body
containing negated literals, any selected body ordering satisfies the
proper-SIP-order-with-negation property. -/
theorem C4_negation_filter_only_in_default_path (hd : Lit) (ls : List Lit)
    (bo : List Lit) (hnaf : hasNafLiteral ls = true)
    (hsel : selectBodyOrder hd ls = some bo) :
    properSipOrderWithNegation bo = true := by
  unfold selectBodyOrder at hsel
  rw [hnaf] at hsel
  simp only [if_true] at hsel
  have hmem : bo ∈ (findFullSip (ls.length + 1) [hd] [] ls true).filter
      properSipOrderWithNegation := List.mem_of_mem_head? hsel
  exact (List.mem_filter.mp hmem).2

/-- C4 witness: a clause with a negated body literal whose default-path
selection succeeds; the selected ordering satisfies the negation
property. -/
theorem C4_witness :
    hasNafLiteral [nafSX, rXY] = true ∧
    selectBodyOrder hX [nafSX, rXY] = some [rXY] ∧
    properSipOrderWithNegation [rXY] = true :=
  ⟨rfl, rfl, C4_negation_filter_only_in_default_path hX [nafSX, rXY] [rXY] rfl rfl⟩

/-- C5 counterexample: BuildNaturalSIP on the single-literal-body clause
h(X,Y) :- flat(X,Y) with bound head produces a graph holding only the
BoundHeadPredicate type triple — a non-empty graph with no arcs — and
validSip returns True on it, refuting the claim that validSip returns
False for every graph with no arcs. -/
theorem C5_counterexample :
    BuildNaturalSIP clause5 [] ah5 none false =
      .ok { triples := [⟨Term.uri "ex:h", rdf_type, magicBoundHeadPredicate⟩],
            sipOrder := [flatXY], bodyOrder? := none } ∧
    arcTriples [⟨Term.uri "ex:h", rdf_type, magicBoundHeadPredicate⟩] = [] ∧
    validSip [⟨Term.uri "ex:h", rdf_type, magicBoundHeadPredicate⟩] = true := by
  refine ⟨rfl, rfl, rfl⟩

/-- C5 (amended): validSip(G) returns True iff G contains at least one
triple of any kind and every magic:bindings-linked collection node has an
rdf:first triple (every arc's bindings list is non-empty); in particular
a non-empty arc-free graph yields True, not False. -/
theorem C5_validSip_iff (g : List Triple) :
    validSip g = true ↔
      g ≠ [] ∧ ∀ t ∈ g, t.p = magicBindings →
        ∃ u ∈ g, u.s = t.o ∧ u.p = rdf_first := by
  unfold validSip
  by_cases hg : g.length = 0
  · have hgeq : g = [] := List.length_eq_zero.mp hg
    subst hgeq
    simp
  · have hne : g ≠ [] := by
      intro hcon
      subst hcon
      simp at hg
    rw [if_neg hg]
    simp only [Bool.not_eq_true', List.any_eq_false, Bool.and_eq_true,
      List.any_eq_true, decide_eq_true_eq]
    constructor
    · intro hall
      refine ⟨hne, ?_⟩
      intro t ht htp
      have h2 := hall t ht
      push_neg at h2
      exact h2 htp
    · rintro ⟨-, hall⟩ t ht
      push_neg
      intro htp
      exact hall t ht htp

/-- C6 counterexample: two distinct literals of one body — the generic
triple (?X, ex:a_b, ?Y) and the generic triple (?b_X, ex:a, ?Y) — receive
the same occurrence identifier, because the identifier is the operator
and the arguments joined with underscores and the join is ambiguous;
getOccurrenceId is therefore not injective over a single body. -/
theorem C6_counterexample :
    lit6a ≠ lit6b ∧ getOccurrenceId lit6a = getOccurrenceId lit6b := by
  refine ⟨by decide, rfl⟩

/-- C6 (amended): getOccurrenceId is stable — it is a pure function of
the literal's operator and argument list, so rebuilding with identical
input yields the identical identifier — but it is not injective over a
single body. -/
theorem C6_stable_of_op_args (L1 L2 : Lit) (hop : GetOp L1 = GetOp L2)
    (hargs : GetArgs L1 false = GetArgs L2 false) :
    getOccurrenceId L1 = getOccurrenceId L2 := by
  unfold getOccurrenceId
  rw [hop, hargs]

/-- C6 witness: two rebuilds of the same atom (differing only in the
transient naf flag, which occurrence ids ignore) get the same id. -/
theorem C6_witness :
    getOccurrenceId (.Uniterm (.uri "ex:p") vX vY false) =
      getOccurrenceId (.Uniterm (.uri "ex:p") vX vY true) :=
  C6_stable_of_op_args _ _ rfl rfl

/-- C7 counterexample: SetOp on an existential wrapper raises the
unsupported-term-kind error even though the wrapper is a known variant to
which GetOp and GetArgs transparently delegate; this refutes the claim
that SetOp succeeds on every known variant including the existential
wrapper. -/
theorem C7_counterexample :
    SetOp lit7 (Term.uri "ex:q2") = .error .unsupportedTermKind ∧
    GetOp lit7 = Term.uri "ex:p" ∧
    GetArgs lit7 false = [vX, vY] := by
  refine ⟨rfl, rfl, rfl⟩

/-- C7 (amended): SetOp succeeds on builtin, type-predicate and generic
triple literals and fails exactly on the existential wrapper, the one
known variant it does not delegate through (unlike GetOp and GetArgs). -/
theorem C7_SetOp_ok_iff (L : Lit) (v : Term) :
    isOkE (SetOp L v) = !isExistsLit L := by
  cases L with
  | Uniterm op a0 a1 nf =>
      by_cases h : op = rdf_type <;> simp [SetOp, isOkE, isExistsLit, h]
  | N3Builtin u a r => rfl
  | exists_ f => rfl

/-- C8 counterexample: in the base-query branch, the current environment
binds ?X to ex:valA while the EDB row binds ?X to ex:valB; the claim says
the disagreeing row is discarded and no candidate is yielded, but the
code yields the merged candidate with the environment's value silently
overriding the row's. -/
theorem C8_counterexample :
    conjunctiveSipStrategy [] [] edbEval8 invokeDP8 [tp8] [(vX, aConst)] =
      [[(vX, aConst), (vX, bConst)]] ∧
    alookup [(vX, aConst), (vX, bConst)] vX = some aConst ∧
    aConst ≠ bConst := by
  refine ⟨rfl, rfl, by decide⟩

/-- C8 (amended): each base row is merged by plain dictionary update with
the current environment taking precedence on shared variables — a value
already present in the environment survives the merge unchanged — and the
merged candidate is passed on to the remaining goals rather than
discarded. -/
theorem C8_amended :
    (∀ (row b : Bindings) (k : Term) (v : Term), alookup b k = some v →
        alookup (dictUpdate row b) k = some v) ∧
    (∀ (dp hp : List Term) (ev : TriplePat → Bindings → EDBResult)
        (ivk : TriplePat → Bindings → List DPAnswer) (tp : TriplePat)
        (rest : List TriplePat) (b : Bindings) (rs : List Bindings)
        (row : Bindings) (ans : Bindings),
      derivedPredicateFromTriple dp hp tp = none →
      ev tp b = .rows rs → row ∈ rs →
      ans ∈ conjunctiveSipStrategy dp hp ev ivk rest (dictUpdate row b) →
      ans ∈ conjunctiveSipStrategy dp hp ev ivk (tp :: rest) b) := by
  constructor
  · intro row b k v hv
    unfold dictUpdate
    rw [alookup_append, hv]
  · intro dp hp ev ivk tp rest b rs row ans h1 h2 h3 h4
    simp only [conjunctiveSipStrategy, h1, h2]
    exact List.mem_flatMap.mpr ⟨row, h3, h4⟩

/-- C8 witness: the amended merge behaviour at the concrete C8 scenario. -/
theorem C8_witness :
    ([(vX, aConst), (vX, bConst)] : Bindings) ∈
      conjunctiveSipStrategy [] [] edbEval8 invokeDP8 [tp8] [(vX, aConst)] :=
  C8_amended.2 [] [] edbEval8 invokeDP8 tp8 [] [(vX, aConst)]
    [[(vX, bConst)]] [(vX, bConst)] [(vX, aConst), (vX, bConst)]
    rfl rfl (List.mem_cons_self _ _) (List.mem_cons_self _ _)

/-- C9: hybridPredicatePreparation deep-copies the rules before applying
the hybrid rewrites, so every rule object of the original heap — in
particular every clause of the caller's rule set — is unchanged in the
returned heap: the rewrites touch only the freshly allocated copies and
the appended bridge rules. -/
theorem C9_idb_frame (idbRefs : List Nat) (hyb der : List Term) (h : Heap)
    (i : Nat) (hi : i < h.length) :
    ((hybridPredicatePreparation idbRefs hyb der h).2.2)[i]? = h[i]? := by
  obtain ⟨t, ht⟩ := deepcopy_shape idbRefs h
  have h2len : (ReplaceHybridPredcates hyb (deepcopyRules idbRefs h).1
      (deepcopyRules idbRefs h).2).length = h.length + t.length := by
    rw [replace_length, ht]
    simp
  simp only [hybridPredicatePreparation]
  rw [List.getElem?_append_left (by omega)]
  rw [replace_frame _ _ _ _ (fun r hr => by
        have hge := deepcopy_refs_ge idbRefs h r hr
        omega)]
  rw [ht, List.getElem?_append_left hi]

/-- C9 witness: a one-rule heap with a hybrid predicate; the original
rule object is untouched by the preparation. -/
theorem C9_witness :
    0 < heap9.length ∧
    ((hybridPredicatePreparation [0] [Term.uri "ex:p"] [Term.uri "ex:p"]
        heap9).2.2)[0]? = heap9[0]? :=
  ⟨by decide,
   C9_idb_frame [0] [Term.uri "ex:p"] [Term.uri "ex:p"] heap9 0 (by decide)⟩

/-- C10: in the batch_unify branch for base-only conjunctions, when every
pattern is fully ground (the collected Variable list is empty) and the
store query returns at least one row, iterating the result generator
raises IndexError (vars[0] on the empty list) instead of yielding a
binding environment. -/
theorem C10_ground_index_error (dp hp : List Term)
    (ev : TriplePat → Bindings → EDBResult)
    (ivk : TriplePat → Bindings → List DPAnswer)
    (patterns : List Pattern4) (r0 : PyVal) (rest : List PyVal)
    (hground : ((patterns.flatMap (fun pat => [pat.s, pat.p, pat.o])).filter
        isVar) = [])
    (hnd : (batchDPreds hp patterns).any (fun d => decide (d ∈ dp)) = false) :
    batch_unify dp hp ev ivk (r0 :: rest) patterns = .error .indexError := by
  simp only [batch_unify, hnd, Bool.false_eq_true, if_false, hground]
  rfl

/-- C10 witness: one fully ground pattern over a base predicate and a
one-row store reply. -/
theorem C10_witness :
    batch_unify [] [] edbEval10 invokeDP10 [PyVal.tup [Term.uri "ex:c"]]
      [pat10] = .error .indexError :=
  C10_ground_index_error [] [] edbEval10 invokeDP10 [pat10]
    (PyVal.tup [Term.uri "ex:c"]) [] rfl rfl

end FuXi



